import Mathlib

/-!
Verification of the vector-editor geometry and transform engine.

The JavaScript source is shallowly embedded: numbers are modelled as exact
rationals (JS doubles print and re-parse exactly, so finite-number round-trips
are faithful), the special JS values `NaN` and `undefined` are explicit
constructors, DOM matrices are 2x3 rational affine matrices, and the path
attribute string is modelled at the token level produced by the tokenizing
regular expression of `parsePathData` (one token per command letter, one token
per whitespace/comma-separated argument, with `parseFloat` applied to each
argument token).
-/

/-- A JavaScript numeric value as it flows through the path parser:
a finite number, `NaN` (e.g. `parseFloat` of a non-numeric token), or
`undefined` (reading a missing array index). -/
inductive JSVal where
  | num (q : ℚ)
  | nan
  | undef
deriving DecidableEq, Repr

/-- JS `+` on the values the parser can hold: number + number is a number,
anything involving `NaN` or `undefined` is `NaN`. -/
def jsAdd : JSVal → JSVal → JSVal
  | JSVal.num a, JSVal.num b => JSVal.num (a + b)
  | _, _ => JSVal.nan

/-- `coords[i]` in JS: the element when present, `undefined` otherwise. -/
def jsIdx (l : List JSVal) (i : ℕ) : JSVal :=
  (l.get? i).getD JSVal.undef

/-- Is the value a finite number? -/
def JSVal.isNum : JSVal → Bool
  | JSVal.num _ => true
  | _ => false

/-- The command letters recognized by the tokenizing regex
`([MmLlHhVvCcSsQqTtAaZz])` of `parsePathData`. -/
inductive PLetter where
  | M | m | L | l | H | h | V | v | C | c | S | s | Q | q | T | t | A | a | Z | z
deriving DecidableEq, Repr

/-- One token of a path-data string: a recognized command letter, or one
argument token (already passed through `parseFloat`; junk text between
letters shows up as an argument whose value is `NaN`). -/
inductive Tok where
  | cmd (letter : PLetter)
  | arg (v : JSVal)
deriving DecidableEq, Repr

/-- A parsed path command, exactly the objects `parsePathData` pushes:
absolute `M`, `L`, `C`, `Q` or `Z`. -/
inductive Cmd where
  | M (x y : JSVal)
  | L (x y : JSVal)
  | C (x1 y1 x2 y2 x y : JSVal)
  | Q (x1 y1 x y : JSVal)
  | Z
deriving DecidableEq, Repr

/-- All coordinates of a command are finite numbers. -/
def Cmd.allNum : Cmd → Bool
  | Cmd.M x y => x.isNum && y.isNum
  | Cmd.L x y => x.isNum && y.isNum
  | Cmd.C x1 y1 x2 y2 x y =>
      x1.isNum && y1.isNum && x2.isNum && y2.isNum && x.isNum && y.isNum
  | Cmd.Q x1 y1 x y => x1.isNum && y1.isNum && x.isNum && y.isNum
  | Cmd.Z => true

/-- Collect the argument group of the current command letter `cl` (the
`([^MmLlHhVvCcSsQqTtAaZz]*)` regex group), then continue at the next letter. -/
def groupToksAux : List Tok → PLetter → List JSVal → List (PLetter × List JSVal)
  | [], cl, acc => [(cl, acc)]
  | Tok.arg v :: rest, cl, acc => groupToksAux rest cl (acc ++ [v])
  | Tok.cmd c2 :: rest, cl, acc => (cl, acc) :: groupToksAux rest c2 []

/-- Group a token stream into (letter, argument group) pairs, as the global
regex scan does; junk before the first letter is never matched and dropped. -/
def groupToks : List Tok → List (PLetter × List JSVal)
  | [] => []
  | Tok.arg _ :: rest => groupToks rest
  | Tok.cmd cl :: rest => groupToksAux rest cl []

/-- The chunk loop `for (i = 0; i < coords.length; i += 2)` shared by the
`M`/`m` and `L`/`l` branches: each pair `coords[i], coords[i+1]` (a missing
index reads as `undefined`) becomes one absolute command, updating the running
cursor `(currentX, currentY)` to the command endpoint. -/
def runPair (mk : JSVal → JSVal → Cmd) (isRel : Bool) :
    List JSVal → JSVal × JSVal → List Cmd × (JSVal × JSVal)
  | [], cur => ([], cur)
  | [v0], cur =>
      let x := if isRel then jsAdd v0 cur.1 else v0
      let y := if isRel then jsAdd JSVal.undef cur.2 else JSVal.undef
      ([mk x y], (x, y))
  | v0 :: v1 :: rest, cur =>
      let x := if isRel then jsAdd v0 cur.1 else v0
      let y := if isRel then jsAdd v1 cur.2 else v1
      let r := runPair mk isRel rest (x, y)
      (mk x y :: r.1, r.2)

/-- The chunk loop of the `C`/`c` branch (`i += 6`); in a trailing group of
fewer than six values the missing indices read as `undefined`. -/
def runCurve (isRel : Bool) :
    List JSVal → JSVal × JSVal → List Cmd × (JSVal × JSVal)
  | [], cur => ([], cur)
  | v0 :: v1 :: v2 :: v3 :: v4 :: v5 :: rest, cur =>
      let x1 := if isRel then jsAdd v0 cur.1 else v0
      let y1 := if isRel then jsAdd v1 cur.2 else v1
      let x2 := if isRel then jsAdd v2 cur.1 else v2
      let y2 := if isRel then jsAdd v3 cur.2 else v3
      let x := if isRel then jsAdd v4 cur.1 else v4
      let y := if isRel then jsAdd v5 cur.2 else v5
      let r := runCurve isRel rest (x, y)
      (Cmd.C x1 y1 x2 y2 x y :: r.1, r.2)
  | vs, cur =>
      let x1 := if isRel then jsAdd (jsIdx vs 0) cur.1 else jsIdx vs 0
      let y1 := if isRel then jsAdd (jsIdx vs 1) cur.2 else jsIdx vs 1
      let x2 := if isRel then jsAdd (jsIdx vs 2) cur.1 else jsIdx vs 2
      let y2 := if isRel then jsAdd (jsIdx vs 3) cur.2 else jsIdx vs 3
      let x := if isRel then jsAdd (jsIdx vs 4) cur.1 else jsIdx vs 4
      let y := if isRel then jsAdd (jsIdx vs 5) cur.2 else jsIdx vs 5
      ([Cmd.C x1 y1 x2 y2 x y], (x, y))

/-- The chunk loop of the `Q`/`q` branch (`i += 4`); in a trailing group of
fewer than four values the missing indices read as `undefined`. -/
def runQuad (isRel : Bool) :
    List JSVal → JSVal × JSVal → List Cmd × (JSVal × JSVal)
  | [], cur => ([], cur)
  | v0 :: v1 :: v2 :: v3 :: rest, cur =>
      let x1 := if isRel then jsAdd v0 cur.1 else v0
      let y1 := if isRel then jsAdd v1 cur.2 else v1
      let x := if isRel then jsAdd v2 cur.1 else v2
      let y := if isRel then jsAdd v3 cur.2 else v3
      let r := runQuad isRel rest (x, y)
      (Cmd.Q x1 y1 x y :: r.1, r.2)
  | vs, cur =>
      let x1 := if isRel then jsAdd (jsIdx vs 0) cur.1 else jsIdx vs 0
      let y1 := if isRel then jsAdd (jsIdx vs 1) cur.2 else jsIdx vs 1
      let x := if isRel then jsAdd (jsIdx vs 2) cur.1 else jsIdx vs 2
      let y := if isRel then jsAdd (jsIdx vs 3) cur.2 else jsIdx vs 3
      ([Cmd.Q x1 y1 x y], (x, y))

/-- Dispatch on one command letter with its argument group, mirroring the
`if`/`else if` chain of `parsePathData`: `M m L l C c Q q Z z` have branches,
every other recognized letter (`H h V v S s T t A a`) falls through and is
skipped with the cursor untouched. -/
def processGroup (cl : PLetter) (args : List JSVal) (cur : JSVal × JSVal) :
    List Cmd × (JSVal × JSVal) :=
  match cl with
  | PLetter.M => runPair Cmd.M false args cur
  | PLetter.m => runPair Cmd.M true args cur
  | PLetter.L => runPair Cmd.L false args cur
  | PLetter.l => runPair Cmd.L true args cur
  | PLetter.C => runCurve false args cur
  | PLetter.c => runCurve true args cur
  | PLetter.Q => runQuad false args cur
  | PLetter.q => runQuad true args cur
  | PLetter.Z => ([Cmd.Z], cur)
  | PLetter.z => ([Cmd.Z], cur)
  | _ => ([], cur)

/-- Run every (letter, argument group) pair in order, threading the cursor. -/
def processGroups : List (PLetter × List JSVal) → JSVal × JSVal →
    List Cmd × (JSVal × JSVal)
  | [], cur => ([], cur)
  | (cl, args) :: gs, cur =>
      let r1 := processGroup cl args cur
      let r2 := processGroups gs r1.2
      (r1.1 ++ r2.1, r2.2)

/-- `SVGEditor.parsePathData` (app.js 1528-1630) over the token stream of the
path string; the cursor `(currentX, currentY)` starts at `(0, 0)`. -/
def parsePathData (ts : List Tok) : List Cmd :=
  (processGroups (groupToks ts) (JSVal.num 0, JSVal.num 0)).1

/-- Tokens of the text `${v}` interpolates for one coordinate value:
a finite number prints as a numeral that parses back exactly; `undefined`
prints as the single junk token `undefined` whose `parseFloat` is `NaN`;
`NaN` prints as `NaN`, which the tokenizer splits at the letter `a`. -/
def serializeVal : JSVal → List Tok
  | JSVal.num q => [Tok.arg (JSVal.num q)]
  | JSVal.undef => [Tok.arg JSVal.nan]
  | JSVal.nan => [Tok.arg JSVal.nan, Tok.cmd PLetter.a, Tok.arg JSVal.nan]

/-- Tokens emitted by one iteration of the `buildPathData` loop. -/
def serializeCmd : Cmd → List Tok
  | Cmd.M x y => Tok.cmd PLetter.M :: (serializeVal x ++ serializeVal y)
  | Cmd.L x y => Tok.cmd PLetter.L :: (serializeVal x ++ serializeVal y)
  | Cmd.C x1 y1 x2 y2 x y =>
      Tok.cmd PLetter.C ::
        (serializeVal x1 ++ serializeVal y1 ++ serializeVal x2 ++
         serializeVal y2 ++ serializeVal x ++ serializeVal y)
  | Cmd.Q x1 y1 x y =>
      Tok.cmd PLetter.Q ::
        (serializeVal x1 ++ serializeVal y1 ++ serializeVal x ++ serializeVal y)
  | Cmd.Z => [Tok.cmd PLetter.Z]

/-- `SVGEditor.buildPathData` (app.js 1664-1682): one absolute command token
group per entry. -/
def buildPathData (cs : List Cmd) : List Tok :=
  (cs.map serializeCmd).flatten

/-! ## Affine matrices and the coordinate space mapper -/

/-- A DOM `SVGMatrix`: the affine map `(x, y) ↦ (a x + c y + e, b x + d y + f)`. -/
structure Mat2 where
  a : ℚ
  b : ℚ
  c : ℚ
  d : ℚ
  e : ℚ
  f : ℚ
deriving DecidableEq, Repr

def Mat2.det (m : Mat2) : ℚ := m.a * m.d - m.b * m.c

def Mat2.apply (m : Mat2) (p : ℚ × ℚ) : ℚ × ℚ :=
  (m.a * p.1 + m.c * p.2 + m.e, m.b * p.1 + m.d * p.2 + m.f)

/-- `matrix.inverse()`. The DOM throws on a singular matrix; here the
division-by-zero case is never used by any theorem (invertibility is always a
hypothesis where this appears). -/
def Mat2.inv (m : Mat2) : Mat2 where
  a := m.d / m.det
  b := -m.b / m.det
  c := -m.c / m.det
  d := m.a / m.det
  e := (m.c * m.f - m.d * m.e) / m.det
  f := (m.b * m.e - m.a * m.f) / m.det

def Mat2.idMat : Mat2 := ⟨1, 0, 0, 1, 0, 0⟩

/-- Composition: `(Mat2.comp m1 m2).apply p = m1.apply (m2.apply p)`. -/
def Mat2.comp (m1 m2 : Mat2) : Mat2 where
  a := m1.a * m2.a + m1.c * m2.b
  b := m1.b * m2.a + m1.d * m2.b
  c := m1.a * m2.c + m1.c * m2.d
  d := m1.b * m2.c + m1.d * m2.d
  e := m1.a * m2.e + m1.c * m2.f + m1.e
  f := m1.b * m2.e + m1.d * m2.f + m1.f

/-- `SVGEditor.toRootCoords` (app.js 1184-1196): local → screen via the
element's cumulative matrix, then screen → root user space via the inverse of
the root's matrix; if either matrix is unavailable the input is returned
unchanged. -/
def toRootCoords (elemCTM rootCTM : Option Mat2) (p : ℚ × ℚ) : ℚ × ℚ :=
  match elemCTM, rootCTM with
  | some ec, some rc => rc.inv.apply (ec.apply p)
  | _, _ => p

/-- `SVGEditor.toLocalCoords` (app.js 1198-1210): root → screen via the root
matrix, then screen → local via the inverse of the element's matrix; if either
matrix is unavailable the input is returned unchanged. -/
def toLocalCoords (elemCTM rootCTM : Option Mat2) (p : ℚ × ℚ) : ℚ × ℚ :=
  match elemCTM, rootCTM with
  | some ec, some rc => ec.inv.apply (rc.apply p)
  | _, _ => p

/-! ## Hit-test engine -/

/-- The scan loop of `findNearestThinElementAtPoint`: `best` is
`nearestElement`, `minD` is `minDistance` (initially the proximity
threshold); hidden elements (`style.display === 'none'`) are skipped and a
candidate replaces the best only when strictly closer. -/
def findNearestAux {E : Type} (hidden : E → Bool) (dist : E → ℚ) :
    List E → Option E → ℚ → Option E
  | [], best, _ => best
  | e :: rest, best, minD =>
      if hidden e then findNearestAux hidden dist rest best minD
      else if dist e < minD then findNearestAux hidden dist rest (some e) (dist e)
      else findNearestAux hidden dist rest best minD

/-- `SVGEditor.findNearestThinElementAtPoint` (app.js 1212-1228): candidates
arrive already ordered front-to-back (topmost first); `dist` abstracts the
rendering-surface distance query `getDistanceToElementScreen`, `hidden` the
`style.display` check, and `threshold` is `proximityThreshold`. -/
def findNearestThinElementAtPoint {E : Type} (hidden : E → Bool) (dist : E → ℚ)
    (threshold : ℚ) (elements : List E) : Option E :=
  findNearestAux hidden dist elements none threshold

/-! ## Node editing -/

/-- Which point of a command a node handle addresses. -/
inductive PointType where
  | main
  | control1
  | control2
deriving DecidableEq, Repr

/-- The field writes of `moveNode`, dispatched on
`this.currentDraggedNode.controlPoint` (`=== 1`, `=== 2`, else the main
point). Writing `x1/y1`, `x2/y2` or `x/y` onto a command object that does not
serialize those fields (e.g. `x1` on an `L`, or `x` on a `Z`) adds properties
`buildPathData` never reads, so the serialized command is unchanged. -/
def updateCmd (dragged : Option ℕ) (c : Cmd) (lx ly : ℚ) : Cmd :=
  match dragged with
  | some 1 =>
      match c with
      | Cmd.C _ _ x2 y2 x y => Cmd.C (JSVal.num lx) (JSVal.num ly) x2 y2 x y
      | Cmd.Q _ _ x y => Cmd.Q (JSVal.num lx) (JSVal.num ly) x y
      | c2 => c2
  | some 2 =>
      match c with
      | Cmd.C x1 y1 _ _ x y => Cmd.C x1 y1 (JSVal.num lx) (JSVal.num ly) x y
      | c2 => c2
  | _ =>
      match c with
      | Cmd.M _ _ => Cmd.M (JSVal.num lx) (JSVal.num ly)
      | Cmd.L _ _ => Cmd.L (JSVal.num lx) (JSVal.num ly)
      | Cmd.C x1 y1 x2 y2 _ _ => Cmd.C x1 y1 x2 y2 (JSVal.num lx) (JSVal.num ly)
      | Cmd.Q x1 y1 _ _ => Cmd.Q x1 y1 (JSVal.num lx) (JSVal.num ly)
      | Cmd.Z => Cmd.Z

/-- `SVGEditor.moveNode` (app.js 1632-1662; the second copy at 3529-3559 is
identical up to the name of the root-to-local helper). The only range guard is
`commandIndex >= commands.length`; a negative index reaches
`commands[commandIndex]`, which is `undefined`, and the subsequent field
assignment throws a `TypeError`, modelled as `Except.error`. The extra
`pointType` argument some callers pass does not exist in this signature and is
ignored. -/
def moveNode (elemCTM rootCTM : Option Mat2) (dragged : Option ℕ)
    (isPath : Bool) (d : List Tok) (commandIndex : ℤ) (x y : ℚ) :
    Except Unit (List Tok) :=
  if !isPath then Except.ok d
  else
    let commands := parsePathData d
    if (commands.length : ℤ) ≤ commandIndex then Except.ok d
    else if commandIndex < 0 then Except.error ()
    else
      let idx := commandIndex.toNat
      let lp := toLocalCoords elemCTM rootCTM (x, y)
      Except.ok (buildPathData
        (commands.set idx (updateCmd dragged (commands.getD idx Cmd.Z) lp.1 lp.2)))

/-- The coordinate pair a `PointType` addresses in a command, when present. -/
def pointOfCmd (pt : PointType) : Cmd → Option (JSVal × JSVal)
  | Cmd.M x y =>
      match pt with
      | PointType.main => some (x, y)
      | _ => none
  | Cmd.L x y =>
      match pt with
      | PointType.main => some (x, y)
      | _ => none
  | Cmd.C x1 y1 x2 y2 x y =>
      match pt with
      | PointType.main => some (x, y)
      | PointType.control1 => some (x1, y1)
      | PointType.control2 => some (x2, y2)
  | Cmd.Q x1 y1 x y =>
      match pt with
      | PointType.main => some (x, y)
      | PointType.control1 => some (x1, y1)
      | PointType.control2 => none
  | Cmd.Z => none

/-- Modelled from the spec: `getNodePosition` is called throughout the node
editor but is not among the source files; per spec section 4.5 node handles
are positioned from the addressed command coordinate pair via the Coordinate
Space Mapper, and a missing node yields nothing. -/
def getNodePosition (elemCTM rootCTM : Option Mat2) (d : List Tok)
    (index : ℕ) (pt : PointType) : Option (ℚ × ℚ) :=
  match (parsePathData d).get? index with
  | none => none
  | some c =>
      match pointOfCmd pt c with
      | some (JSVal.num px, JSVal.num py) =>
          some (toRootCoords elemCTM rootCTM (px, py))
      | _ => none

/-- Is the command a cubic curve (`cmd.type === 'C'`)? -/
def isC : Cmd → Bool
  | Cmd.C _ _ _ _ _ _ => true
  | _ => false

/-- `DirectSelectTool.moveAdjacentBezierHandles`
(direct-select-tool.js 136-198). `dragged` is the ambient
`currentDraggedNode.controlPoint` that the inner `moveNode` calls dispatch on
(the `pointType` string they pass is not a parameter of `moveNode`); `sel2`
and `sel1next` say whether the control2 node of the addressed command and the
control1 node of the next command are in the current node selection. The
`maintainTangency` toggling around the body is dropped because `moveNode`
never reads it. -/
def moveAdjacentBezierHandles (elemCTM rootCTM : Option Mat2)
    (dragged : Option ℕ) (sel2 sel1next : Bool) (isPath : Bool)
    (d : List Tok) (commandIndex : ℤ) (deltaX deltaY : ℚ) :
    Except Unit (List Tok) := do
  if !isPath then return d
  if d.isEmpty then return d
  let commands := parsePathData d
  if (commands.length : ℤ) ≤ commandIndex then return d
  if commandIndex < 0 then throw ()
  let idx := commandIndex.toNat
  let d1 ←
    if isC (commands.getD idx Cmd.Z) && !sel2 then
      match getNodePosition elemCTM rootCTM d idx PointType.control2 with
      | some pos =>
          moveNode elemCTM rootCTM dragged true d commandIndex
            (pos.1 + deltaX) (pos.2 + deltaY)
      | none => pure d
    else pure d
  if commandIndex < (commands.length : ℤ) - 1 then
    if isC (commands.getD (idx + 1) Cmd.Z) && !sel1next then
      match getNodePosition elemCTM rootCTM d1 (idx + 1) PointType.control1 with
      | some pos =>
          moveNode elemCTM rootCTM dragged true d1 (commandIndex + 1)
            (pos.1 + deltaX) (pos.2 + deltaY)
      | none => return d1
    else return d1
  else return d1

/-- One move event of a Main-vertex drag in `DirectSelectTool.onMouseMove`
(direct-select-tool.js 82-111) when the dragged main node is the selection:
the node is moved to its snapshot position plus the pointer delta, then the
adjacent bezier handles are moved by the same delta. Dragging a Main vertex
leaves `currentDraggedNode.controlPoint` unset, so `dragged` is `none`. -/
def directSelectDragMain (elemCTM rootCTM : Option Mat2) (d : List Tok)
    (index : ℕ) (startPos target : ℚ × ℚ) (sel2 sel1next : Bool) :
    Except Unit (List Tok) := do
  let deltaX := target.1 - startPos.1
  let deltaY := target.2 - startPos.2
  let d1 ← moveNode elemCTM rootCTM none true d (index : ℤ) target.1 target.2
  moveAdjacentBezierHandles elemCTM rootCTM none sel2 sel1next true d1
    (index : ℤ) deltaX deltaY

/-! ## Element transform attribute -/

/-- The record `getElementTransform` returns and `setElementTransform`
consumes; `none` models a JS `undefined` field. -/
structure ElementTransform where
  x : Option ℚ
  y : Option ℚ
  rotation : Option ℚ
  rotationCenterX : Option ℚ
  rotationCenterY : Option ℚ
  scaleX : Option ℚ
  scaleY : Option ℚ
  scaleCenterX : Option ℚ
  scaleCenterY : Option ℚ
deriving DecidableEq, Repr

/-- One token of the `transform` attribute text `setElementTransform` emits
and the regexes of `getElementTransform` scan. -/
inductive TItem where
  | translate (tx ty : ℚ)
  | rotate (ang : ℚ)
  | rotateC (ang cx cy : ℚ)
  | scale (sx sy : ℚ)
deriving DecidableEq, Repr

/-- `SVGEditor.setElementTransform` (app.js 2478-2514): translate, then
rotate (with optional center), then scale — about a center via a
translate/scale/translate sandwich when `scaleCenterX/Y` are defined.
`transform.x || 0` agrees with `getD 0` on every defined rational. -/
def setElementTransform (t : ElementTransform) : List TItem :=
  (if t.x ≠ none ∨ t.y ≠ none then [TItem.translate (t.x.getD 0) (t.y.getD 0)]
   else []) ++
  (match t.rotation with
   | some r =>
       if r ≠ 0 then
         match t.rotationCenterX, t.rotationCenterY with
         | some cx, some cy => [TItem.rotateC r cx cy]
         | _, _ => [TItem.rotate r]
       else []
   | none => []) ++
  (if t.scaleX ≠ none ∨ t.scaleY ≠ none then
     let sx := t.scaleX.getD 1
     let sy := t.scaleY.getD 1
     match t.scaleCenterX, t.scaleCenterY with
     | some cx, some cy =>
         [TItem.translate (-cx) (-cy), TItem.scale sx sy, TItem.translate cx cy]
     | _, _ => [TItem.scale sx sy]
   else [])

/-- First `translate(a,b)` in the attribute text (the non-global
`translateMatch` regex). -/
def firstTranslate : List TItem → Option (ℚ × ℚ)
  | [] => none
  | TItem.translate a b :: _ => some (a, b)
  | _ :: rest => firstTranslate rest

/-- First `rotate(...)` in the attribute text, with its optional center. -/
def firstRotate : List TItem → Option (ℚ × Option (ℚ × ℚ))
  | [] => none
  | TItem.rotate a :: _ => some (a, none)
  | TItem.rotateC a cx cy :: _ => some (a, some (cx, cy))
  | _ :: rest => firstRotate rest

/-- First `scale(...)` in the attribute text. -/
def firstScale : List TItem → Option (ℚ × ℚ)
  | [] => none
  | TItem.scale sx sy :: _ => some (sx, sy)
  | _ :: rest => firstScale rest

/-- `SVGEditor.getElementTransform` (app.js 2461-2476): reads only the first
translate, the first rotate and the first scale of the attribute text;
translation defaults to 0, scale to 1, rotation to 0, rotation center to
`undefined`. No `scaleCenterX`/`scaleCenterY` fields are ever produced. -/
def getElementTransform (items : List TItem) : ElementTransform where
  x := some (((firstTranslate items).map Prod.fst).getD 0)
  y := some (((firstTranslate items).map Prod.snd).getD 0)
  rotation := some (((firstRotate items).map Prod.fst).getD 0)
  rotationCenterX :=
    match firstRotate items with
    | some (_, some (cx, _)) => some cx
    | _ => none
  rotationCenterY :=
    match firstRotate items with
    | some (_, some (_, cy)) => some cy
    | _ => none
  scaleX := some (((firstScale items).map Prod.fst).getD 1)
  scaleY := some (((firstScale items).map Prod.snd).getD 1)
  scaleCenterX := none
  scaleCenterY := none

/-- The affine matrix of one transform-list item. Rotation is by an angle in
degrees; its cosine and sine are abstracted by the collaborator functions
`cosd` and `sind` (browser matrix math), keeping the model exact. -/
def TItem.matWith (cosd sind : ℚ → ℚ) : TItem → Mat2
  | TItem.translate tx ty => ⟨1, 0, 0, 1, tx, ty⟩
  | TItem.scale sx sy => ⟨sx, 0, 0, sy, 0, 0⟩
  | TItem.rotate ang => ⟨cosd ang, sind ang, -sind ang, cosd ang, 0, 0⟩
  | TItem.rotateC ang cx cy =>
      ⟨cosd ang, sind ang, -sind ang, cosd ang,
       cx - cosd ang * cx + sind ang * cy,
       cy - sind ang * cx - cosd ang * cy⟩

/-- The numeric affine effect of a transform list: SVG applies the items left
to right, `p ↦ M1 (M2 (... (Mn p)))`. -/
def matrixOfItems (cosd sind : ℚ → ℚ) (items : List TItem) : Mat2 :=
  (items.map (TItem.matWith cosd sind)).foldr Mat2.comp Mat2.idMat

/-! ## History manager -/

/-- The `HistoryManager` state (history-manager.js): entries are abstracted to
the serialized scene payload (a number suffices for the stack laws), `svgOk`
models `this.editor.svgElement` being present. -/
structure HMState where
  history : List ℕ
  currentIndex : ℤ
  isRestoring : Bool
  svgOk : Bool
deriving DecidableEq, Repr

def maxHistorySize : ℕ := 100

/-- JS `array.slice(0, e)`: a negative end counts from the end of the array. -/
def jsSliceTo {α : Type} (l : List α) (e : ℤ) : List α :=
  l.take (if e < 0 then ((l.length : ℤ) + e).toNat else e.toNat)

/-- `HistoryManager.saveState` (history-manager.js 14-54): no-op while
restoring or without a scene; truncates the redo tail beyond `currentIndex`,
appends, advances `currentIndex` to the tail, and on overflow drops the
oldest entry (`shift()`) and decrements `currentIndex`. -/
def saveState (s : HMState) (entry : ℕ) : HMState :=
  if s.isRestoring then s
  else if !s.svgOk then s
  else
    let hist1 :=
      if s.currentIndex < (s.history.length : ℤ) - 1 then
        jsSliceTo s.history (s.currentIndex + 1)
      else s.history
    let hist2 := hist1 ++ [entry]
    let ci2 : ℤ := (hist2.length : ℤ) - 1
    if maxHistorySize < hist2.length then
      { s with history := hist2.tail, currentIndex := ci2 - 1 }
    else
      { s with history := hist2, currentIndex := ci2 }

/-- `HistoryManager.canUndo` (history-manager.js 184-186). -/
def canUndo (s : HMState) : Bool := 0 < s.currentIndex

/-- `HistoryManager.canRedo` (history-manager.js 192-194). -/
def canRedo (s : HMState) : Bool := s.currentIndex < (s.history.length : ℤ) - 1

/-- `HistoryManager.undo`: guarded index decrement; `restoreState` touches the
live scene, not the stack, and resets `isRestoring` in its `finally`. -/
def undo (s : HMState) : HMState :=
  if canUndo s then { s with currentIndex := s.currentIndex - 1 } else s

/-- `HistoryManager.redo`: guarded index increment. -/
def redo (s : HMState) : HMState :=
  if canRedo s then { s with currentIndex := s.currentIndex + 1 } else s

/-- `HistoryManager.restoreToIndex` (history-manager.js 98-105). -/
def restoreToIndex (s : HMState) (index : ℤ) : HMState :=
  if index < 0 ∨ (s.history.length : ℤ) ≤ index then s
  else { s with currentIndex := index }

/-- `HistoryManager.clear` (history-manager.js 226-232). -/
def clearHistory (s : HMState) : HMState :=
  { s with history := [], currentIndex := -1 }

/-- The stack invariant: `currentIndex` stays within `[-1, length - 1]` and
the stack never exceeds `maxHistorySize`. -/
def HMInv (s : HMState) : Prop :=
  -1 ≤ s.currentIndex ∧ s.currentIndex ≤ (s.history.length : ℤ) - 1 ∧
    s.history.length ≤ maxHistorySize

instance (s : HMState) : Decidable (HMInv s) := by
  unfold HMInv; infer_instance

/-! ## Bounding-box scale gesture -/

/-- The geometry payload of one shape, as the coordinate-level scaling
touches it. -/
inductive ElemData where
  | path (cmds : List Cmd)
  | rect (x y width height : ℚ)
  | circle (cx cy r : ℚ)
  | ellipse (cx cy rx ry : ℚ)
  | line (x1 y1 x2 y2 : ℚ)
  | polyline (pts : List (ℚ × ℚ))
  | polygon (pts : List (ℚ × ℚ))
  | textElem (x y fontSize : ℚ)
deriving DecidableEq, Repr

/-- Coordinate-level scaling of one coordinate about a center. -/
def scaleCoord (center coord factor : ℚ) : ℚ :=
  center + (coord - center) * factor

/-- Scaling applied to a path coordinate value; a `NaN`/`undefined`
coordinate stays non-numeric (JS arithmetic on it gives `NaN`). -/
def jsScaleVal (center factor : ℚ) : JSVal → JSVal
  | JSVal.num q => JSVal.num (scaleCoord center q factor)
  | _ => JSVal.nan

/-- Scale every coordinate pair of a path command. -/
def scaleCmd (cx cy sx sy : ℚ) : Cmd → Cmd
  | Cmd.M x y => Cmd.M (jsScaleVal cx sx x) (jsScaleVal cy sy y)
  | Cmd.L x y => Cmd.L (jsScaleVal cx sx x) (jsScaleVal cy sy y)
  | Cmd.C x1 y1 x2 y2 x y =>
      Cmd.C (jsScaleVal cx sx x1) (jsScaleVal cy sy y1)
        (jsScaleVal cx sx x2) (jsScaleVal cy sy y2)
        (jsScaleVal cx sx x) (jsScaleVal cy sy y)
  | Cmd.Q x1 y1 x y =>
      Cmd.Q (jsScaleVal cx sx x1) (jsScaleVal cy sy y1)
        (jsScaleVal cx sx x) (jsScaleVal cy sy y)
  | Cmd.Z => Cmd.Z

/-- Modelled from the spec: `scaleElementCoordinates` is called by
`BoundingBoxManager.handleTransform` but is not among the source files; per
spec section 4.4 every geometry-defining coordinate is mapped through
`center + (coord - center) * factor`, with the circle radius (and text font
size) using the average of the two axis factors, ellipse radii and rect sizes
scaling by their own axis factor. -/
def scaleElementCoordinates (d : ElemData) (cx cy sx sy : ℚ) : ElemData :=
  match d with
  | ElemData.path cmds => ElemData.path (cmds.map (scaleCmd cx cy sx sy))
  | ElemData.rect x y w h =>
      ElemData.rect (scaleCoord cx x sx) (scaleCoord cy y sy) (w * sx) (h * sy)
  | ElemData.circle ccx ccy r =>
      ElemData.circle (scaleCoord cx ccx sx) (scaleCoord cy ccy sy)
        (r * ((sx + sy) / 2))
  | ElemData.ellipse ecx ecy rx ry =>
      ElemData.ellipse (scaleCoord cx ecx sx) (scaleCoord cy ecy sy)
        (rx * sx) (ry * sy)
  | ElemData.line x1 y1 x2 y2 =>
      ElemData.line (scaleCoord cx x1 sx) (scaleCoord cy y1 sy)
        (scaleCoord cx x2 sx) (scaleCoord cy y2 sy)
  | ElemData.polyline pts =>
      ElemData.polyline (pts.map fun p => (scaleCoord cx p.1 sx, scaleCoord cy p.2 sy))
  | ElemData.polygon pts =>
      ElemData.polygon (pts.map fun p => (scaleCoord cx p.1 sx, scaleCoord cy p.2 sy))
  | ElemData.textElem x y fs =>
      ElemData.textElem (scaleCoord cx x sx) (scaleCoord cy y sy)
        (fs * ((sx + sy) / 2))

/-- Modelled from the spec: `saveElementData` (called at gesture press) is
not among the source files; it captures the shape's original geometry
payload. -/
def saveElementData (d : ElemData) : ElemData := d

/-- Modelled from the spec: `restoreElementData` is not among the source
files; it restores the geometry payload captured by `saveElementData`,
discarding the current (already mutated) geometry. -/
def restoreElementData (saved : ElemData) : ElemData := saved

/-- One pointer-move event of a gesture, with its modifier flag. -/
structure MoveEvent where
  px : ℚ
  py : ℚ
  shiftKey : Bool
deriving DecidableEq, Repr

/-- The per-gesture snapshot captured by
`BoundingBoxManager.handleHandleDown` (part_001 278-329) for one selected
element: start pointer (`transformStart`), start bounding box
(`transformStartBBox`), original geometry (`transformStartElementData`),
local center (`transformStartCenters`), and the element's constant transform
matrices (the scale gesture rewrites coordinates, never the transform
attribute, so the CTMs do not change during the gesture). -/
structure GestureSnapshot where
  startX : ℚ
  startY : ℚ
  bboxX : ℚ
  bboxY : ℚ
  bboxW : ℚ
  bboxH : ℚ
  startData : ElemData
  startCenterLocal : Option (ℚ × ℚ)
  elemCTM : Option Mat2
  rootCTM : Option Mat2

/-- The scale-factor computation of `BoundingBoxManager.handleTransform`
(part_001 383-431): per active handle axis the factor is the current pointer
offset from the start-bbox center over the start offset (guarded by the
`0.001` dead zone), made non-negative, with `max` of both on a shifted corner
handle. `hx, hy` is the direction vector of the pressed handle. -/
def computeScaleFactors (g : GestureSnapshot) (hx hy : ℤ) (ev : MoveEvent) :
    ℚ × ℚ :=
  let centerRootX := g.bboxX + g.bboxW / 2
  let centerRootY := g.bboxY + g.bboxH / 2
  let startDx := g.startX - centerRootX
  let startDy := g.startY - centerRootY
  let currentDx := ev.px - centerRootX
  let currentDy := ev.py - centerRootY
  let sx0 := if hx ≠ 0 ∧ 1 / 1000 < |startDx| then currentDx / startDx else 1
  let sy0 := if hy ≠ 0 ∧ 1 / 1000 < |startDy| then currentDy / startDy else 1
  let sx1 := if hx ≠ 0 then |sx0| else sx0
  let sy1 := if hy ≠ 0 then |sy0| else sy0
  if ev.shiftKey ∧ hx ≠ 0 ∧ hy ≠ 0 then (max sx1 sy1, max sx1 sy1)
  else (sx1, sy1)

/-- The per-element body of the scale branch of
`BoundingBoxManager.handleTransform` (part_001 444-484): restore the original
geometry, pick the scale center (the snapshot local center — or the live
local bbox center of the just-restored geometry as fallback, via the
rendering-surface collaborator `localBBoxCenter` — when scaling about own
centers or with a single selection; otherwise the start-bbox center mapped to
local space), then scale coordinates. The current geometry `_current` is
discarded by the restore. -/
def handleTransformScaleStep (localBBoxCenter : ElemData → Option (ℚ × ℚ))
    (scaleAboutOwnCenter : Bool) (selectionSize : ℕ) (g : GestureSnapshot)
    (hx hy : ℤ) (ev : MoveEvent) (_current : ElemData) : ElemData :=
  let restored := restoreElementData (saveElementData g.startData)
  let factors := computeScaleFactors g hx hy ev
  let useOwnCenter := scaleAboutOwnCenter ∨ selectionSize = 1
  if useOwnCenter then
    match g.startCenterLocal with
    | some cl => scaleElementCoordinates restored cl.1 cl.2 factors.1 factors.2
    | none =>
        match localBBoxCenter restored with
        | some cl => scaleElementCoordinates restored cl.1 cl.2 factors.1 factors.2
        | none => restored
  else
    let selectionCenterRoot := (g.bboxX + g.bboxW / 2, g.bboxY + g.bboxH / 2)
    let cl := toLocalCoords g.elemCTM g.rootCTM selectionCenterRoot
    scaleElementCoordinates restored cl.1 cl.2 factors.1 factors.2

/-- A whole scale gesture: the element's geometry after a sequence of
pointer-move events, each processed by `handleTransformScaleStep`. -/
def applyScaleMoves (localBBoxCenter : ElemData → Option (ℚ × ℚ))
    (scaleAboutOwnCenter : Bool) (selectionSize : ℕ) (g : GestureSnapshot)
    (hx hy : ℤ) (d0 : ElemData) (evs : List MoveEvent) : ElemData :=
  evs.foldl
    (fun d ev =>
      handleTransformScaleStep localBBoxCenter scaleAboutOwnCenter
        selectionSize g hx hy ev d)
    d0

/-! ## Helper functions for the round-trip analysis -/

/-- The command letter `buildPathData` emits for a command. -/
def letterOf : Cmd → PLetter
  | Cmd.M _ _ => PLetter.M
  | Cmd.L _ _ => PLetter.L
  | Cmd.C _ _ _ _ _ _ => PLetter.C
  | Cmd.Q _ _ _ _ => PLetter.Q
  | Cmd.Z => PLetter.Z

/-- The coordinate values of a command, in emission order. -/
def coordsOf : Cmd → List JSVal
  | Cmd.M x y => [x, y]
  | Cmd.L x y => [x, y]
  | Cmd.C x1 y1 x2 y2 x y => [x1, y1, x2, y2, x, y]
  | Cmd.Q x1 y1 x y => [x1, y1, x, y]
  | Cmd.Z => []

/-- The cursor after re-parsing a command: endpoint for drawing commands,
unchanged for `Z`. -/
def cursorAfter (c : Cmd) (cur : JSVal × JSVal) : JSVal × JSVal :=
  match c with
  | Cmd.M x y => (x, y)
  | Cmd.L x y => (x, y)
  | Cmd.C _ _ _ _ x y => (x, y)
  | Cmd.Q _ _ x y => (x, y)
  | Cmd.Z => cur

/-- A token list that does not begin with an argument token. -/
def headNotArg : List Tok → Prop
  | Tok.arg _ :: _ => False
  | _ => True


/-- A concrete two-curve path, `M 0 0 C 1 1 2 2 3 3 C 4 4 5 5 6 6`, used to
exercise the node-editing operations. -/
def sampleCurvePath : List Tok :=
  [Tok.cmd PLetter.M, Tok.arg (JSVal.num 0), Tok.arg (JSVal.num 0),
   Tok.cmd PLetter.C, Tok.arg (JSVal.num 1), Tok.arg (JSVal.num 1),
   Tok.arg (JSVal.num 2), Tok.arg (JSVal.num 2), Tok.arg (JSVal.num 3),
   Tok.arg (JSVal.num 3),
   Tok.cmd PLetter.C, Tok.arg (JSVal.num 4), Tok.arg (JSVal.num 4),
   Tok.arg (JSVal.num 5), Tok.arg (JSVal.num 5), Tok.arg (JSVal.num 6),
   Tok.arg (JSVal.num 6)]

/-- A concrete transform record scaling by 2 about the local point `(5, 0)`,
used to exercise the transform-attribute round trip. -/
def scaleCenteredTransform : ElementTransform :=
  ⟨some 0, some 0, none, none, none, some 2, some 2, some 5, some 0⟩

/-! ## Theorems -/

theorem toLocalCoords_of_idMat (p : ℚ × ℚ) :
    toLocalCoords (some Mat2.idMat) (some Mat2.idMat) p = p := by
  simp [toLocalCoords, Mat2.idMat, Mat2.inv, Mat2.det, Mat2.apply]

theorem toRootCoords_of_idMat (p : ℚ × ℚ) :
    toRootCoords (some Mat2.idMat) (some Mat2.idMat) p = p := by
  simp [toRootCoords, Mat2.idMat, Mat2.inv, Mat2.det, Mat2.apply]

theorem Mat2.inv_apply_apply (m : Mat2) (h : m.det ≠ 0) (p : ℚ × ℚ) :
    m.inv.apply (m.apply p) = p := by
  have hd : m.a * m.d - m.b * m.c ≠ 0 := by
    simpa [Mat2.det] using h
  obtain ⟨x, y⟩ := p
  simp only [Mat2.inv, Mat2.apply, Mat2.det, Prod.mk.injEq]
  constructor <;> (field_simp; ring)

theorem Mat2.apply_inv_apply (m : Mat2) (h : m.det ≠ 0) (p : ℚ × ℚ) :
    m.apply (m.inv.apply p) = p := by
  have hd : m.a * m.d - m.b * m.c ≠ 0 := by
    simpa [Mat2.det] using h
  obtain ⟨x, y⟩ := p
  simp only [Mat2.inv, Mat2.apply, Mat2.det, Prod.mk.injEq]
  constructor <;> (field_simp; ring)

/-- C3: with both the element and root matrices available and invertible,
`toLocalCoords` undoes `toRootCoords` exactly (hence within any floating
tolerance); with either matrix unavailable, both maps return the input point
unchanged. -/
theorem claim_C3_toLocal_toRoot_inverse (ec rc : Mat2) (p : ℚ × ℚ)
    (hec : ec.det ≠ 0) (hrc : rc.det ≠ 0) :
    toLocalCoords (some ec) (some rc) (toRootCoords (some ec) (some rc) p) = p ∧
    (∀ (o : Option Mat2) (q : ℚ × ℚ),
      toRootCoords none o q = q ∧ toRootCoords o none q = q ∧
      toLocalCoords none o q = q ∧ toLocalCoords o none q = q) := by
  constructor
  · show ec.inv.apply (rc.apply (rc.inv.apply (ec.apply p))) = p
    rw [Mat2.apply_inv_apply rc hrc, Mat2.inv_apply_apply ec hec]
  · intro o q
    refine ⟨rfl, ?_, rfl, ?_⟩ <;> cases o <;> rfl

/-- Witness for C3 at a concrete invertible matrix pair and point. -/
theorem claim_C3_witness :
    toLocalCoords (some ⟨2, 0, 1, 3, 5, 7⟩) (some ⟨1, 0, 0, 1, 4, 9⟩)
        (toRootCoords (some ⟨2, 0, 1, 3, 5, 7⟩) (some ⟨1, 0, 0, 1, 4, 9⟩)
          (11, 13)) = (11, 13) ∧
      toRootCoords none (some Mat2.idMat) (3, 4) = (3, 4) := by
  have h := claim_C3_toLocal_toRoot_inverse ⟨2, 0, 1, 3, 5, 7⟩ ⟨1, 0, 0, 1, 4, 9⟩
    (11, 13) (by norm_num [Mat2.det]) (by norm_num [Mat2.det])
  exact ⟨h.1, (h.2 (some Mat2.idMat) (3, 4)).1⟩

/-- C1: the scale gesture is non-compounding. Each pointer-move recomputes
the element geometry from the gesture-start snapshot alone, so a gesture
processed through any number of intermediate move events ends in exactly the
geometry produced by processing only its final move event: the final geometry
depends only on the snapshot and the final pointer position. -/
theorem claim_C1_scale_gesture_noncompounding
    (localBBoxCenter : ElemData → Option (ℚ × ℚ))
    (scaleAboutOwnCenter : Bool) (selectionSize : ℕ) (g : GestureSnapshot)
    (hx hy : ℤ) (d0 : ElemData) (evs : List MoveEvent) (ev : MoveEvent) :
    applyScaleMoves localBBoxCenter scaleAboutOwnCenter selectionSize g hx hy
        d0 (evs ++ [ev]) =
      applyScaleMoves localBBoxCenter scaleAboutOwnCenter selectionSize g hx hy
        d0 [ev] := by
  unfold applyScaleMoves
  rw [List.foldl_append]
  rfl

/-- C5: the history-stack scenario. From an empty history, three `saveState`
calls leave `canUndo` true and `canRedo` false; one `undo` makes `canRedo`
true; a fourth `saveState` discards the entries after `currentIndex` (the
redo branch, entry 3) before appending entry 4 and moving `currentIndex` to
the tail. -/
theorem claim_C5_history_scenario :
    canUndo (saveState (saveState (saveState ⟨[], -1, false, true⟩ 1) 2) 3)
        = true ∧
    canRedo (saveState (saveState (saveState ⟨[], -1, false, true⟩ 1) 2) 3)
        = false ∧
    canRedo (undo (saveState (saveState (saveState ⟨[], -1, false, true⟩ 1) 2) 3))
        = true ∧
    (saveState
        (undo (saveState (saveState (saveState ⟨[], -1, false, true⟩ 1) 2) 3))
        4).history = [1, 2, 4] ∧
    (saveState
        (undo (saveState (saveState (saveState ⟨[], -1, false, true⟩ 1) 2) 3))
        4).currentIndex = 2 := by
  decide


theorem length_jsSliceTo_le {α : Type} (l : List α) (e : ℤ) :
    (jsSliceTo l e).length ≤ l.length := by
  simp [jsSliceTo]

theorem saveState_effective (s : HMState) (e : ℕ)
    (hr : s.isRestoring = false) (hs : s.svgOk = true)
    (hlen : s.history.length ≤ maxHistorySize) :
    ∃ hist2 : List ℕ,
      (saveState s e).history = hist2 ∧
      (saveState s e).currentIndex = (hist2.length : ℤ) - 1 ∧
      (saveState s e).isRestoring = s.isRestoring ∧
      (saveState s e).svgOk = s.svgOk ∧
      hist2.getLast? = some e ∧ 1 ≤ hist2.length ∧
      hist2.length ≤ maxHistorySize := by
  have hpre :
      (if s.currentIndex < (s.history.length : ℤ) - 1 then
          jsSliceTo s.history (s.currentIndex + 1)
        else s.history).length ≤ s.history.length := by
    split
    · exact length_jsSliceTo_le _ _
    · exact le_refl _
  set pre :=
    (if s.currentIndex < (s.history.length : ℤ) - 1 then
        jsSliceTo s.history (s.currentIndex + 1)
      else s.history) with hpredef
  have hsave : saveState s e =
      (if maxHistorySize < (pre ++ [e]).length then
        { s with history := (pre ++ [e]).tail,
                 currentIndex := ((pre ++ [e]).length : ℤ) - 1 - 1 }
      else
        { s with history := pre ++ [e],
                 currentIndex := ((pre ++ [e]).length : ℤ) - 1 }) := by
    simp only [saveState, hr, hs]
    simp
  by_cases h100 : maxHistorySize < (pre ++ [e]).length
  · rw [hsave, if_pos h100]
    refine ⟨(pre ++ [e]).tail, rfl, ?_, rfl, rfl, ?_, ?_, ?_⟩
    · simp only [List.length_tail, List.length_append, List.length_cons,
        List.length_nil]
      omega
    · match hp : pre with
      | [] =>
          simp [maxHistorySize] at h100
      | a :: pr =>
          simp [List.getLast?_concat]
    · simp only [List.length_tail, List.length_append, List.length_cons,
        List.length_nil] at h100 ⊢
      simp only [maxHistorySize] at h100 ⊢
      omega
    · simp only [List.length_tail, List.length_append, List.length_cons,
        List.length_nil] at h100 ⊢
      simp only [maxHistorySize] at h100 hpre hlen ⊢
      omega
  · rw [hsave, if_neg h100]
    refine ⟨pre ++ [e], rfl, rfl, rfl, rfl, ?_, ?_, ?_⟩
    · simp [List.getLast?_concat]
    · simp [List.length_append]
    · simp only [List.length_append, List.length_cons, List.length_nil] at h100 ⊢
      omega

/-- C10: every `HistoryManager` operation preserves the stack invariant
(`-1 ≤ currentIndex ≤ history.length - 1`, `history.length ≤ 100`), and an
effective `saveState` — including the eviction-at-capacity case, where
`currentIndex` is decremented after the oldest entry is shifted off — leaves
`currentIndex` addressing the entry just pushed, at the tail. -/
theorem claim_C10_history_invariants (s : HMState) (e : ℕ) (i : ℤ)
    (h : HMInv s) :
    HMInv (saveState s e) ∧ HMInv (undo s) ∧ HMInv (redo s) ∧
    HMInv (restoreToIndex s i) ∧ HMInv (clearHistory s) ∧
    (s.isRestoring = false → s.svgOk = true →
      (saveState s e).history.getLast? = some e ∧
      (saveState s e).currentIndex =
        ((saveState s e).history.length : ℤ) - 1) := by
  obtain ⟨h1, h2, h3⟩ := h
  have hsaveInv : HMInv (saveState s e) := by
    by_cases hr : s.isRestoring
    · have heq : saveState s e = s := by simp [saveState, hr]
      rw [heq]; exact ⟨h1, h2, h3⟩
    · by_cases hsv : s.svgOk
      · obtain ⟨hist2, hh, hc, _, _, _, hl1, hl2⟩ :=
          saveState_effective s e (by simpa using hr) hsv h3
        refine ⟨?_, ?_, ?_⟩
        · rw [hc]; omega
        · rw [hc, hh]
        · rw [hh]; exact hl2
      · have heq : saveState s e = s := by
          simp [saveState, hr]
          intro hcon
          exact absurd hcon hsv
        rw [heq]; exact ⟨h1, h2, h3⟩
  refine ⟨hsaveInv, ?_, ?_, ?_, ?_, ?_⟩
  · by_cases hcu : (0 : ℤ) < s.currentIndex
    · simp only [undo, canUndo, decide_eq_true_eq, if_pos hcu]
      exact ⟨show (-1 : ℤ) ≤ s.currentIndex - 1 by omega,
        show s.currentIndex - 1 ≤ (s.history.length : ℤ) - 1 by omega, h3⟩
    · simp only [undo, canUndo, decide_eq_true_eq, if_neg hcu]
      exact ⟨h1, h2, h3⟩
  · by_cases hcr : s.currentIndex < (s.history.length : ℤ) - 1
    · simp only [redo, canRedo, decide_eq_true_eq, if_pos hcr]
      exact ⟨show (-1 : ℤ) ≤ s.currentIndex + 1 by omega,
        show s.currentIndex + 1 ≤ (s.history.length : ℤ) - 1 by omega, h3⟩
    · simp only [redo, canRedo, decide_eq_true_eq, if_neg hcr]
      exact ⟨h1, h2, h3⟩
  · by_cases hri : i < 0 ∨ (s.history.length : ℤ) ≤ i
    · simp only [restoreToIndex, if_pos hri]
      exact ⟨h1, h2, h3⟩
    · simp only [restoreToIndex, if_neg hri]
      push_neg at hri
      exact ⟨show (-1 : ℤ) ≤ i by omega,
        show i ≤ (s.history.length : ℤ) - 1 by omega, h3⟩
  · exact ⟨by norm_num [clearHistory], by norm_num [clearHistory],
      by simp [clearHistory, maxHistorySize]⟩
  · intro hr hs
    obtain ⟨hist2, hh, hc, _, _, hLast, _, _⟩ :=
      saveState_effective s e hr hs h3
    exact ⟨by rw [hh]; exact hLast, by rw [hc, hh]⟩

/-- Witness for C10: the invariant theorem applied to the empty initial
state. -/
theorem claim_C10_witness :
    HMInv (saveState ⟨[], -1, false, true⟩ 5) ∧
      (saveState ⟨[], -1, false, true⟩ 5).history.getLast? = some 5 := by
  have h := claim_C10_history_invariants ⟨[], -1, false, true⟩ 5 0 (by decide)
  exact ⟨h.1, (h.2.2.2.2.2 rfl rfl).1⟩

/-- C8 counterexample: `moveNode` at `commandIndex = -1` on a non-empty path
is not a silent no-op — the negative index passes the only range guard
(`commandIndex >= commands.length`), `commands[-1]` is `undefined`, and the
field assignment throws a `TypeError` (modelled as `Except.error`). -/
theorem claim_C8_counterexample :
    moveNode (some Mat2.idMat) (some Mat2.idMat) none true
      [Tok.cmd PLetter.M, Tok.arg (JSVal.num 0), Tok.arg (JSVal.num 0)]
      (-1) 5 5 = Except.error () := by
  rfl

/-- C8 amended: `moveNode` with `commandIndex` at or beyond the command count
is a silent no-op — it returns without throwing and leaves the path data
unchanged; a negative `commandIndex`, by contrast, throws. -/
theorem claim_C8_moveNode_high_index_noop (elemCTM rootCTM : Option Mat2)
    (dragged : Option ℕ) (isPath : Bool) (d : List Tok) (i : ℤ) (x y : ℚ)
    (h : ((parsePathData d).length : ℤ) ≤ i) :
    moveNode elemCTM rootCTM dragged isPath d i x y = Except.ok d := by
  unfold moveNode
  cases isPath
  · rfl
  · simp [h]

/-- Witness for the amended C8 at a concrete one-command path and index 5. -/
theorem claim_C8_witness :
    ((parsePathData [Tok.cmd PLetter.M, Tok.arg (JSVal.num 0),
        Tok.arg (JSVal.num 0)]).length : ℤ) ≤ 5 ∧
    moveNode (some Mat2.idMat) (some Mat2.idMat) none true
      [Tok.cmd PLetter.M, Tok.arg (JSVal.num 0), Tok.arg (JSVal.num 0)]
      5 7 7 =
      Except.ok [Tok.cmd PLetter.M, Tok.arg (JSVal.num 0),
        Tok.arg (JSVal.num 0)] :=
  ⟨by decide,
    claim_C8_moveNode_high_index_noop _ _ _ _ _ _ _ _ (by decide)⟩

/-- C9 counterexample: parsing `M 5` yields a command whose `y` coordinate is
`undefined` — the missing coordinate is not defaulted to 0 and the resulting
command sequence is not all-finite. -/
theorem claim_C9_counterexample :
    parsePathData [Tok.cmd PLetter.M, Tok.arg (JSVal.num 5)] =
      [Cmd.M (JSVal.num 5) JSVal.undef] ∧
    JSVal.undef.isNum = false ∧ JSVal.undef ≠ JSVal.num 0 := by
  decide

/-- C9 amended: recognized-but-unhandled command letters
(`H h V v S s T t A a`) are skipped — their group contributes no commands and
leaves the cursor untouched, and parsing continues — while missing
coordinates are not defaulted to 0: they propagate as `undefined` into the
command sequence (`M 5` parses to a command with `y = undefined`). -/
theorem claim_C9_parse_tolerance :
    (∀ args gs cur, processGroups ((PLetter.H, args) :: gs) cur =
      processGroups gs cur) ∧
    (∀ args gs cur, processGroups ((PLetter.h, args) :: gs) cur =
      processGroups gs cur) ∧
    (∀ args gs cur, processGroups ((PLetter.V, args) :: gs) cur =
      processGroups gs cur) ∧
    (∀ args gs cur, processGroups ((PLetter.v, args) :: gs) cur =
      processGroups gs cur) ∧
    (∀ args gs cur, processGroups ((PLetter.S, args) :: gs) cur =
      processGroups gs cur) ∧
    (∀ args gs cur, processGroups ((PLetter.s, args) :: gs) cur =
      processGroups gs cur) ∧
    (∀ args gs cur, processGroups ((PLetter.T, args) :: gs) cur =
      processGroups gs cur) ∧
    (∀ args gs cur, processGroups ((PLetter.t, args) :: gs) cur =
      processGroups gs cur) ∧
    (∀ args gs cur, processGroups ((PLetter.A, args) :: gs) cur =
      processGroups gs cur) ∧
    (∀ args gs cur, processGroups ((PLetter.a, args) :: gs) cur =
      processGroups gs cur) ∧
    parsePathData [Tok.cmd PLetter.M, Tok.arg (JSVal.num 5)] =
      [Cmd.M (JSVal.num 5) JSVal.undef] := by
  refine ⟨?_, ?_, ?_, ?_, ?_, ?_, ?_, ?_, ?_, ?_, by decide⟩ <;>
    intro args gs cur <;> simp [processGroups, processGroup]

theorem JSVal.isNum_iff (v : JSVal) :
    v.isNum = true ↔ ∃ q, v = JSVal.num q := by
  cases v <;> simp [JSVal.isNum]

theorem groupToksAux_args (vs : List JSVal) :
    ∀ (X : List Tok) (cl : PLetter) (acc : List JSVal),
      groupToksAux (vs.map Tok.arg ++ X) cl acc =
        groupToksAux X cl (acc ++ vs) := by
  induction vs with
  | nil => intro X cl acc; simp
  | cons v vs2 ih =>
      intro X cl acc
      rw [List.map_cons, List.cons_append]
      rw [show groupToksAux (Tok.arg v :: (List.map Tok.arg vs2 ++ X)) cl acc =
        groupToksAux (List.map Tok.arg vs2 ++ X) cl (acc ++ [v]) from rfl]
      rw [ih]
      simp

theorem groupToksAux_of_headNotArg (vs : List JSVal) (X : List Tok)
    (hX : headNotArg X) (cl : PLetter) :
    groupToksAux (vs.map Tok.arg ++ X) cl [] = (cl, vs) :: groupToks X := by
  rw [groupToksAux_args]
  cases X with
  | nil => simp [groupToksAux, groupToks]
  | cons t rest =>
      cases t with
      | arg v => exact hX.elim
      | cmd c2 => simp [groupToksAux, groupToks]

theorem headNotArg_buildPathData (cs : List Cmd) :
    headNotArg (buildPathData cs) := by
  cases cs with
  | nil => trivial
  | cons c rest => cases c <;> trivial

theorem serializeCmd_of_allNum (c : Cmd) (h : c.allNum = true) :
    serializeCmd c = Tok.cmd (letterOf c) :: (coordsOf c).map Tok.arg := by
  cases c with
  | M x y =>
      simp only [Cmd.allNum, Bool.and_eq_true, JSVal.isNum_iff] at h
      obtain ⟨⟨a, rfl⟩, ⟨b, rfl⟩⟩ := h
      simp [serializeCmd, serializeVal, letterOf, coordsOf]
  | L x y =>
      simp only [Cmd.allNum, Bool.and_eq_true, JSVal.isNum_iff] at h
      obtain ⟨⟨a, rfl⟩, ⟨b, rfl⟩⟩ := h
      simp [serializeCmd, serializeVal, letterOf, coordsOf]
  | C x1 y1 x2 y2 x y =>
      simp only [Cmd.allNum, Bool.and_eq_true, JSVal.isNum_iff] at h
      obtain ⟨⟨⟨⟨⟨⟨a1, rfl⟩, b1, rfl⟩, a2, rfl⟩, b2, rfl⟩, a, rfl⟩, b, rfl⟩ := h
      simp [serializeCmd, serializeVal, letterOf, coordsOf]
  | Q x1 y1 x y =>
      simp only [Cmd.allNum, Bool.and_eq_true, JSVal.isNum_iff] at h
      obtain ⟨⟨⟨⟨a1, rfl⟩, b1, rfl⟩, a, rfl⟩, b, rfl⟩ := h
      simp [serializeCmd, serializeVal, letterOf, coordsOf]
  | Z => rfl

theorem processGroup_letterOf (c : Cmd) (h : c.allNum = true)
    (cur : JSVal × JSVal) :
    processGroup (letterOf c) (coordsOf c) cur = ([c], cursorAfter c cur) := by
  cases c with
  | M x y =>
      simp only [Cmd.allNum, Bool.and_eq_true, JSVal.isNum_iff] at h
      obtain ⟨⟨a, rfl⟩, ⟨b, rfl⟩⟩ := h
      simp [letterOf, coordsOf, processGroup, runPair, cursorAfter]
  | L x y =>
      simp only [Cmd.allNum, Bool.and_eq_true, JSVal.isNum_iff] at h
      obtain ⟨⟨a, rfl⟩, ⟨b, rfl⟩⟩ := h
      simp [letterOf, coordsOf, processGroup, runPair, cursorAfter]
  | C x1 y1 x2 y2 x y =>
      simp only [Cmd.allNum, Bool.and_eq_true, JSVal.isNum_iff] at h
      obtain ⟨⟨⟨⟨⟨⟨a1, rfl⟩, b1, rfl⟩, a2, rfl⟩, b2, rfl⟩, a, rfl⟩, b, rfl⟩ := h
      simp [letterOf, coordsOf, processGroup, runCurve, cursorAfter]
  | Q x1 y1 x y =>
      simp only [Cmd.allNum, Bool.and_eq_true, JSVal.isNum_iff] at h
      obtain ⟨⟨⟨⟨a1, rfl⟩, b1, rfl⟩, a, rfl⟩, b, rfl⟩ := h
      simp [letterOf, coordsOf, processGroup, runQuad, cursorAfter]
  | Z => rfl

theorem roundtrip_aux : ∀ (cs : List Cmd) (cur : JSVal × JSVal),
    (∀ c ∈ cs, c.allNum = true) →
    (processGroups (groupToks (buildPathData cs)) cur).1 = cs := by
  intro cs
  induction cs with
  | nil => intro cur _; rfl
  | cons c rest ih =>
      intro cur h
      have hc : c.allNum = true := h c (List.mem_cons_self _ _)
      have hrest : ∀ x ∈ rest, x.allNum = true := fun x hx =>
        h x (List.mem_cons_of_mem _ hx)
      have hbuild : buildPathData (c :: rest) =
          serializeCmd c ++ buildPathData rest := by
        simp [buildPathData]
      rw [hbuild, serializeCmd_of_allNum c hc]
      show (processGroups
        (groupToksAux ((coordsOf c).map Tok.arg ++ buildPathData rest)
          (letterOf c) []) cur).1 = c :: rest
      rw [groupToksAux_of_headNotArg _ _ (headNotArg_buildPathData rest)]
      simp only [processGroups, processGroup_letterOf c hc]
      simp [ih (cursorAfter c cur) hrest]

/-- C2 counterexample: for the path text `M 5` the round trip is not the
identity — the missing `y` parses as `undefined`, serializes as the text
`undefined`, and re-parses as `NaN`, a different value. -/
theorem claim_C2_counterexample :
    parsePathData (buildPathData (parsePathData
        [Tok.cmd PLetter.M, Tok.arg (JSVal.num 5)])) ≠
      parsePathData [Tok.cmd PLetter.M, Tok.arg (JSVal.num 5)] := by
  decide

/-- C2 amended: for every path text whose parse contains only finite
coordinates (no `NaN`/`undefined` from missing or junk arguments),
serializing with `buildPathData` and re-parsing reproduces exactly the same
command sequence — same kinds (all absolute `M`, `L`, `C`, `Q`, `Z`) and the
same coordinates. -/
theorem claim_C2_roundtrip (ts : List Tok)
    (h : ∀ c ∈ parsePathData ts, c.allNum = true) :
    parsePathData (buildPathData (parsePathData ts)) = parsePathData ts :=
  roundtrip_aux (parsePathData ts) _ h

/-- Witness for the amended C2 on the text `M 1 2 C 3 4 5 6 7 8 Z`. -/
theorem claim_C2_witness :
    (∀ c ∈ parsePathData
        [Tok.cmd PLetter.M, Tok.arg (JSVal.num 1), Tok.arg (JSVal.num 2),
         Tok.cmd PLetter.C, Tok.arg (JSVal.num 3), Tok.arg (JSVal.num 4),
         Tok.arg (JSVal.num 5), Tok.arg (JSVal.num 6), Tok.arg (JSVal.num 7),
         Tok.arg (JSVal.num 8), Tok.cmd PLetter.Z], c.allNum = true) ∧
    parsePathData (buildPathData (parsePathData
        [Tok.cmd PLetter.M, Tok.arg (JSVal.num 1), Tok.arg (JSVal.num 2),
         Tok.cmd PLetter.C, Tok.arg (JSVal.num 3), Tok.arg (JSVal.num 4),
         Tok.arg (JSVal.num 5), Tok.arg (JSVal.num 6), Tok.arg (JSVal.num 7),
         Tok.arg (JSVal.num 8), Tok.cmd PLetter.Z])) =
      parsePathData
        [Tok.cmd PLetter.M, Tok.arg (JSVal.num 1), Tok.arg (JSVal.num 2),
         Tok.cmd PLetter.C, Tok.arg (JSVal.num 3), Tok.arg (JSVal.num 4),
         Tok.arg (JSVal.num 5), Tok.arg (JSVal.num 6), Tok.arg (JSVal.num 7),
         Tok.arg (JSVal.num 8), Tok.cmd PLetter.Z] :=
  ⟨by decide, claim_C2_roundtrip _ (by decide)⟩

theorem findNearestAux_none_iff {E : Type} (hidden : E → Bool) (dist : E → ℚ) :
    ∀ (es : List E) (best : Option E) (minD : ℚ),
      findNearestAux hidden dist es best minD = none ↔
        best = none ∧ ∀ e ∈ es, hidden e = false → minD ≤ dist e := by
  intro es
  induction es with
  | nil => intro best minD; simp [findNearestAux]
  | cons e rest ih =>
      intro best minD
      by_cases h1 : hidden e
      · rw [show findNearestAux hidden dist (e :: rest) best minD =
          findNearestAux hidden dist rest best minD from by
            simp [findNearestAux, h1]]
        rw [ih]
        constructor
        · rintro ⟨hb, hall⟩
          refine ⟨hb, ?_⟩
          intro x hx hhx
          rcases List.mem_cons.mp hx with rfl | hx2
          · rw [h1] at hhx; exact absurd hhx (by simp)
          · exact hall x hx2 hhx
        · rintro ⟨hb, hall⟩
          exact ⟨hb, fun x hx hhx => hall x (List.mem_cons_of_mem _ hx) hhx⟩
      · have h1f : hidden e = false := by simpa using h1
        by_cases h2 : dist e < minD
        · rw [show findNearestAux hidden dist (e :: rest) best minD =
            findNearestAux hidden dist rest (some e) (dist e) from by
              simp [findNearestAux, h1, h2]]
          rw [ih]
          constructor
          · rintro ⟨hsome, _⟩
            exact absurd hsome (by simp)
          · rintro ⟨hb, hall⟩
            have hcontra := hall e (List.mem_cons_self _ _) h1f
            exact absurd hcontra (not_le.mpr h2)
        · rw [show findNearestAux hidden dist (e :: rest) best minD =
            findNearestAux hidden dist rest best minD from by
              simp [findNearestAux, h1, h2]]
          rw [ih]
          have hge : minD ≤ dist e := not_lt.mp h2
          constructor
          · rintro ⟨hb, hall⟩
            refine ⟨hb, ?_⟩
            intro x hx hhx
            rcases List.mem_cons.mp hx with rfl | hx2
            · exact hge
            · exact hall x hx2 hhx
          · rintro ⟨hb, hall⟩
            exact ⟨hb, fun x hx hhx => hall x (List.mem_cons_of_mem _ hx) hhx⟩

theorem findNearestAux_some_spec {E : Type} (hidden : E → Bool) (dist : E → ℚ) :
    ∀ (es : List E) (best : Option E) (minD : ℚ) (s : E),
      findNearestAux hidden dist es best minD = some s →
      (best = some s ∧ ∀ e ∈ es, hidden e = false → minD ≤ dist e) ∨
      (∃ l1 l2, es = l1 ++ s :: l2 ∧ hidden s = false ∧ dist s < minD ∧
        (∀ e ∈ l1, hidden e = false → dist s < dist e) ∧
        (∀ e ∈ l2, hidden e = false → dist s ≤ dist e)) := by
  intro es
  induction es with
  | nil =>
      intro best minD s h
      left
      exact ⟨h, by simp⟩
  | cons e rest ih =>
      intro best minD s h
      by_cases h1 : hidden e
      · rw [show findNearestAux hidden dist (e :: rest) best minD =
          findNearestAux hidden dist rest best minD from by
            simp [findNearestAux, h1]] at h
        rcases ih best minD s h with ⟨hb, hall⟩ | ⟨l1, l2, heq, hs, hd, hl1, hl2⟩
        · left
          refine ⟨hb, ?_⟩
          intro x hx hhx
          rcases List.mem_cons.mp hx with rfl | hx2
          · rw [h1] at hhx; exact absurd hhx (by simp)
          · exact hall x hx2 hhx
        · right
          refine ⟨e :: l1, l2, by rw [heq, List.cons_append], hs, hd, ?_, hl2⟩
          intro x hx hhx
          rcases List.mem_cons.mp hx with rfl | hx2
          · rw [h1] at hhx; exact absurd hhx (by simp)
          · exact hl1 x hx2 hhx
      · have h1f : hidden e = false := by simpa using h1
        by_cases h2 : dist e < minD
        · rw [show findNearestAux hidden dist (e :: rest) best minD =
            findNearestAux hidden dist rest (some e) (dist e) from by
              simp [findNearestAux, h1, h2]] at h
          rcases ih (some e) (dist e) s h with
            ⟨hb, hall⟩ | ⟨l1, l2, heq, hs, hd, hl1, hl2⟩
          · obtain rfl : e = s := Option.some.inj hb
            right
            exact ⟨[], rest, rfl, h1f, h2, by simp, hall⟩
          · right
            refine ⟨e :: l1, l2, by rw [heq, List.cons_append], hs,
              lt_trans hd h2, ?_, hl2⟩
            intro x hx hhx
            rcases List.mem_cons.mp hx with rfl | hx2
            · exact hd
            · exact hl1 x hx2 hhx
        · rw [show findNearestAux hidden dist (e :: rest) best minD =
            findNearestAux hidden dist rest best minD from by
              simp [findNearestAux, h1, h2]] at h
          rcases ih best minD s h with
            ⟨hb, hall⟩ | ⟨l1, l2, heq, hs, hd, hl1, hl2⟩
          · left
            refine ⟨hb, ?_⟩
            intro x hx hhx
            rcases List.mem_cons.mp hx with rfl | hx2
            · exact not_lt.mp h2
            · exact hall x hx2 hhx
          · right
            refine ⟨e :: l1, l2, by rw [heq, List.cons_append], hs, hd, ?_, hl2⟩
            intro x hx hhx
            rcases List.mem_cons.mp hx with rfl | hx2
            · exact lt_of_lt_of_le hd (not_lt.mp h2)
            · exact hl1 x hx2 hhx

/-- C7: the proximity scan over front-to-back ordered candidates. Any
returned shape is visible, lies strictly below the threshold, is at minimum
distance among all visible candidates, and every visible candidate scanned
before it is strictly farther (ties favor the earlier, topmost candidate);
no shape is returned exactly when no visible candidate is strictly below
the threshold. -/
theorem claim_C7_nearest_thin_scan {E : Type} (hidden : E → Bool)
    (dist : E → ℚ) (threshold : ℚ) (es : List E) :
    (∀ s, findNearestThinElementAtPoint hidden dist threshold es = some s →
      hidden s = false ∧ dist s < threshold ∧
      (∀ e ∈ es, hidden e = false → dist s ≤ dist e) ∧
      ∃ l1 l2, es = l1 ++ s :: l2 ∧
        ∀ e ∈ l1, hidden e = false → dist s < dist e) ∧
    (findNearestThinElementAtPoint hidden dist threshold es = none ↔
      ∀ e ∈ es, hidden e = false → threshold ≤ dist e) := by
  constructor
  · intro s h
    rcases findNearestAux_some_spec hidden dist es none threshold s h with
      ⟨hb, _⟩ | ⟨l1, l2, heq, hs, hd, hl1, hl2⟩
    · exact absurd hb (by simp)
    · refine ⟨hs, hd, ?_, l1, l2, heq, hl1⟩
      intro x hx hhx
      rw [heq] at hx
      rcases List.mem_append.mp hx with hx1 | hx2
      · exact le_of_lt (hl1 x hx1 hhx)
      · rcases List.mem_cons.mp hx2 with rfl | hx3
        · exact le_refl _
        · exact hl2 x hx3 hhx
  · rw [show findNearestThinElementAtPoint hidden dist threshold es =
      findNearestAux hidden dist es none threshold from rfl]
    rw [findNearestAux_none_iff]
    simp

/-- Witness for C7: on candidates `[0, 1, 2]` with distances `5, 3, 3` and
threshold `10`, the scan returns candidate `1` — strictly below threshold,
at minimum distance, ahead of the equally distant candidate `2`; and on a
single candidate at distance 50 it returns nothing. -/
theorem claim_C7_witness :
    ((fun n => if n = 0 then (5 : ℚ) else 3) 1 < (10 : ℚ) ∧
      ∀ e ∈ [0, 1, 2], (fun _ : ℕ => false) e = false →
        (fun n => if n = 0 then (5 : ℚ) else 3) 1 ≤
          (fun n => if n = 0 then (5 : ℚ) else 3) e) ∧
    findNearestThinElementAtPoint (fun _ : ℕ => false)
      (fun n => if n = 0 then (50 : ℚ) else 3) 10 [0] = none := by
  constructor
  · have h := (claim_C7_nearest_thin_scan (fun _ : ℕ => false)
      (fun n => if n = 0 then (5 : ℚ) else 3) 10 [0, 1, 2]).1 1
      (by norm_num [findNearestThinElementAtPoint, findNearestAux])
    exact ⟨h.2.1, h.2.2.1⟩
  · exact (claim_C7_nearest_thin_scan (fun _ : ℕ => false)
      (fun n => if n = 0 then (50 : ℚ) else 3) 10 [0]).2.mpr
      (by intro e he _; rcases List.mem_singleton.mp he with rfl; norm_num)

/-- C4: evaluation of the code at the failing input. Dragging the Main vertex
of command 1 of `sampleCurvePath` by `(10, 0)` (from `(3, 3)` to `(13, 3)`,
with no control point selected and identity transforms) does not move the
adjacent control points: `moveNode` ignores the `pointType` its callers pass
and dispatches on the gesture's `controlPoint` (unset for a Main drag), so
the two adjacent-handle calls overwrite the main endpoints of commands 1 and
2 instead of `x2,y2` of command 1 and `x1,y1` of command 2. The second
conjunct records that this differs from the claimed outcome, in which the
control points move by the delta and the endpoints stay put. -/
theorem claim_C4_adjacent_handles_bug :
    (directSelectDragMain (some Mat2.idMat) (some Mat2.idMat) sampleCurvePath
        1 (3, 3) (13, 3) false false).map parsePathData =
      Except.ok
        [Cmd.M (JSVal.num 0) (JSVal.num 0),
         Cmd.C (JSVal.num 1) (JSVal.num 1) (JSVal.num 2) (JSVal.num 2)
           (JSVal.num 12) (JSVal.num 2),
         Cmd.C (JSVal.num 4) (JSVal.num 4) (JSVal.num 5) (JSVal.num 5)
           (JSVal.num 14) (JSVal.num 4)] ∧
    (Except.ok
        [Cmd.M (JSVal.num 0) (JSVal.num 0),
         Cmd.C (JSVal.num 1) (JSVal.num 1) (JSVal.num 2) (JSVal.num 2)
           (JSVal.num 12) (JSVal.num 2),
         Cmd.C (JSVal.num 4) (JSVal.num 4) (JSVal.num 5) (JSVal.num 5)
           (JSVal.num 14) (JSVal.num 4)] :
        Except Unit (List Cmd)) ≠
      Except.ok
        [Cmd.M (JSVal.num 0) (JSVal.num 0),
         Cmd.C (JSVal.num 1) (JSVal.num 1) (JSVal.num 12) (JSVal.num 2)
           (JSVal.num 13) (JSVal.num 3),
         Cmd.C (JSVal.num 14) (JSVal.num 4) (JSVal.num 5) (JSVal.num 5)
           (JSVal.num 6) (JSVal.num 6)] := by
  constructor
  · norm_num [directSelectDragMain, moveNode, moveAdjacentBezierHandles,
      getNodePosition, pointOfCmd, updateCmd, isC, parsePathData,
      buildPathData, serializeCmd, serializeVal, groupToks, groupToksAux,
      processGroups, processGroup, runPair, runCurve, runQuad, jsIdx,
      sampleCurvePath, toLocalCoords_of_idMat, toRootCoords_of_idMat,
      List.getD, bind, Except.bind, pure, Except.pure, Except.map, List.set]
  · intro hcon
    have := Except.ok.inj hcon
    simp at this

/-- C6: the `ownTransform` textual round trip fails on a record with a scale
center. `setElementTransform` emits the translate/scale/translate sandwich,
but `getElementTransform` reads back only the first translate and the scale,
dropping the sandwich, so the re-parsed record describes the affine map
`p ↦ 2p` while the written text describes `p ↦ 2p + (5, 0)` — a different
numeric effect for every cosine/sine collaborator (no rotation is present). -/
theorem claim_C6_transform_roundtrip_bug (cosd sind : ℚ → ℚ) :
    matrixOfItems cosd sind (setElementTransform scaleCenteredTransform) ≠
      matrixOfItems cosd sind
        (setElementTransform
          (getElementTransform
            (setElementTransform scaleCenteredTransform))) := by
  simp +decide only [scaleCenteredTransform, setElementTransform,
    getElementTransform, firstTranslate, firstRotate, firstScale,
    matrixOfItems, TItem.matWith, Mat2.comp, Mat2.idMat, List.map_cons,
    List.map_nil, List.foldr_cons, List.foldr_nil, ne_eq, Mat2.mk.injEq,
    Option.map_some, Option.getD_some]
  norm_num [TItem.matWith, Mat2.comp, Mat2.mk.injEq]
